import Mathlib

/-
  Verification development for the nu_plugin_dbus repository.

  The definitions below are a shallow embedding of the repository's core:
  * `DbusType` with `parse`, `parse_all`, `stringify`  (src/dbus_type.rs)
  * `Value` (the nushell host value model), `MessageItem` (the wire value
    model) with `from_refarg` and `to_message_item`    (src/convert.rs)
  * the signature-resolution portion of `DbusClient::call` (src/client.rs)

  Rust strings are modelled as Lean `String`, with the character-level
  work done on `String.data : List Char` (every slice taken by the source
  is at an ASCII boundary, so byte slicing and char-list slicing agree).
  Machine integers are modelled as `Int`/`Nat` with explicit range checks
  where the source performs checked conversions.
-/

namespace NuDbus

/-- Representation of fully specified D-Bus types (src/dbus_type.rs `DbusType`). -/
inductive DbusType where
  | Byte
  | Boolean
  | Int16
  | UInt16
  | Int32
  | UInt32
  | Int64
  | UInt64
  | Double
  | String
  | ObjectPath
  | Signature
  | Array (content : DbusType)
  | Struct (types : List DbusType)
  | Variant
  | DictEntry (key : DbusType) (val : DbusType)

/-- Abbreviation for the core string type, usable inside the `DbusType`
namespace where the bare name `String` denotes the signature type constructor. -/
abbrev Str := String

/-- Rust `Debug` formatting of a `char` (`{:?}`), without escape handling
(no claim exercises characters that Rust would escape). -/
def charDebug (c : Char) : String := "\x27" ++ c.toString ++ "\x27"

/-- Rust `Debug` formatting of a string slice (`{:?}`), without escape handling. -/
def strDebug (s : String) : String := "\x22" ++ s ++ "\x22"

mutual

/-- Convert the D-Bus type into a string suitable for the wire format
(src/dbus_type.rs `DbusType::stringify`). -/
def DbusType.stringify : DbusType → Str
  | .Byte => "y"
  | .Boolean => "b"
  | .Int16 => "n"
  | .UInt16 => "q"
  | .Int32 => "i"
  | .UInt32 => "u"
  | .Int64 => "x"
  | .UInt64 => "t"
  | .Double => "d"
  | .String => "s"
  | .ObjectPath => "o"
  | .Signature => "g"
  | .Array content => "a" ++ content.stringify
  | .Struct types => "(" ++ stringifyList types ++ ")"
  | .Variant => "v"
  | .DictEntry key val => "\x7b" ++ key.stringify ++ val.stringify ++ "\x7d"

/-- Concatenation of the stringified forms of a list of types (the body of the
`Struct` arm of `stringify`, which chains the stringified element types). -/
def stringifyList : List DbusType → String
  | [] => ""
  | t :: ts => t.stringify ++ stringifyList ts

end

/-- The tail of a list is shorter than the list. -/
theorem length_lt_cons (c : Char) (rest : List Char) : rest.length < (c :: rest).length := by
  simp

mutual

/-- Parse one type from a D-Bus signature and return the remainder
(src/dbus_type.rs `DbusType::parse`), on the character list of the input.
The remainder is packaged with the fact that at least one character was
consumed, which the source guarantees (every `Ok` branch drops the head);
this is what makes the `parse_all` loop terminate. -/
def parseT : (l : List Char) → Except String (DbusType × { r : List Char // r.length < l.length })
  | [] => .error "unexpected end of D-Bus type string"
  | c :: rest =>
    if c = 'y' then .ok (.Byte, ⟨rest, length_lt_cons c rest⟩)
    else if c = 'b' then .ok (.Boolean, ⟨rest, length_lt_cons c rest⟩)
    else if c = 'n' then .ok (.Int16, ⟨rest, length_lt_cons c rest⟩)
    else if c = 'q' then .ok (.UInt16, ⟨rest, length_lt_cons c rest⟩)
    else if c = 'i' then .ok (.Int32, ⟨rest, length_lt_cons c rest⟩)
    else if c = 'u' then .ok (.UInt32, ⟨rest, length_lt_cons c rest⟩)
    else if c = 'x' then .ok (.Int64, ⟨rest, length_lt_cons c rest⟩)
    else if c = 't' then .ok (.UInt64, ⟨rest, length_lt_cons c rest⟩)
    else if c = 'd' then .ok (.Double, ⟨rest, length_lt_cons c rest⟩)
    else if c = 's' then .ok (.String, ⟨rest, length_lt_cons c rest⟩)
    else if c = 'o' then .ok (.ObjectPath, ⟨rest, length_lt_cons c rest⟩)
    else if c = 'g' then .ok (.Signature, ⟨rest, length_lt_cons c rest⟩)
    else if c = 'a' then
      match parseT rest with
      | .error e => .error e
      | .ok (content, ⟨r, h⟩) => .ok (.Array content, ⟨r, Nat.lt_succ_of_lt h⟩)
    else if c = '(' then
      match parseStructT rest [] with
      | .error e => .error e
      | .ok (t, ⟨r, h⟩) => .ok (t, ⟨r, Nat.lt_succ_of_lt h⟩)
    else if c = 'v' then .ok (.Variant, ⟨rest, length_lt_cons c rest⟩)
    else if c = '\x7b' then
      match parseT rest with
      | .error e => .error e
      | .ok (key, ⟨r1, h1⟩) =>
        match parseT r1 with
        | .error e => .error e
        | .ok (val, ⟨r2, h2⟩) =>
          match r2, h2 with
          | '\x7d' :: r3, h2 =>
            .ok (.DictEntry key val,
              ⟨r3, by simp only [List.length_cons] at h1 h2 ⊢; omega⟩)
          | r2, _ =>
            .error ("expected `\x7d` char to end dictionary in D-Bus type but remainder is "
              ++ strDebug (String.mk r2))
    else .error ("unexpected char " ++ charDebug c ++ " in D-Bus type representation")
termination_by l => (l.length, 0)

/-- The struct-parsing loop of `DbusType::parse` (the `'('` arm): parse inner
types until the closing `')'`, accumulating them (in reverse) in `acc`. -/
def parseStructT : (l : List Char) → List DbusType →
    Except String (DbusType × { r : List Char // r.length < l.length })
  | [], _ => .error "unexpected end of D-Bus type string before end of array"
  | c :: rest, acc =>
    if c = ')' then .ok (.Struct acc.reverse, ⟨rest, length_lt_cons c rest⟩)
    else
      match parseT (c :: rest) with
      | .error e => .error e
      | .ok (t, ⟨r, h⟩) =>
        match parseStructT r (t :: acc) with
        | .error e => .error e
        | .ok (t2, ⟨r2, h2⟩) => .ok (t2, ⟨r2, Nat.lt_trans h2 h⟩)
termination_by l acc => (l.length, 1)

end

/-- `DbusType::parse` on character lists, forgetting the length bound. -/
def parseL (l : List Char) : Except String (DbusType × List Char) :=
  match parseT l with
  | .error e => .error e
  | .ok (t, r) => .ok (t, r.val)

/-- Parse one type from a D-Bus signature, and return the remainder
(src/dbus_type.rs `DbusType::parse`). -/
def DbusType.parse (s : Str) : Except Str (DbusType × Str) :=
  match parseL s.data with
  | .error e => .error e
  | .ok (t, r) => .ok (t, String.mk r)

/-- A successful `parseL` consumes at least one character. -/
theorem parseL_length {l : List Char} {t : DbusType} {r : List Char}
    (h : parseL l = .ok (t, r)) : r.length < l.length := by
  unfold parseL at h
  cases hp : parseT l with
  | error e => rw [hp] at h; exact absurd h (by simp)
  | ok p =>
    rw [hp] at h
    obtain ⟨t', r'⟩ := p
    simp at h
    obtain ⟨_, h2⟩ := h
    subst h2
    exact r'.property

/-- Parse multiple types from a D-Bus signature (src/dbus_type.rs
`DbusType::parse_all`), on the character list of the input: repeatedly apply
`parseL` until the input is exhausted. -/
def parseAllL : (l : List Char) → Except String (List DbusType)
  | [] => .ok []
  | c :: rest =>
    match h : parseL (c :: rest) with
    | .error e => .error e
    | .ok (t, r) =>
      match parseAllL r with
      | .error e => .error e
      | .ok ts => .ok (t :: ts)
termination_by l => l.length
decreasing_by
  simp_wf
  have := parseL_length h
  simpa using this

/-- Parse multiple types from a D-Bus signature (src/dbus_type.rs
`DbusType::parse_all`). -/
def DbusType.parse_all (s : Str) : Except Str (List DbusType) :=
  parseAllL s.data

/-- The struct-parsing loop with the length bound forgotten. -/
def structL (l : List Char) (acc : List DbusType) : Except String (DbusType × List Char) :=
  match parseStructT l acc with
  | .error e => .error e
  | .ok (t, r) => .ok (t, r.val)

theorem parseL_nil : parseL [] = .error "unexpected end of D-Bus type string" := by
  simp [parseL, parseT]

theorem parseL_byte (r : List Char) : parseL ('y' :: r) = .ok (.Byte, r) := by
  simp [parseL, parseT]

theorem parseL_boolean (r : List Char) : parseL ('b' :: r) = .ok (.Boolean, r) := by
  simp [parseL, parseT]

theorem parseL_int16 (r : List Char) : parseL ('n' :: r) = .ok (.Int16, r) := by
  simp [parseL, parseT]

theorem parseL_uint16 (r : List Char) : parseL ('q' :: r) = .ok (.UInt16, r) := by
  simp [parseL, parseT]

theorem parseL_int32 (r : List Char) : parseL ('i' :: r) = .ok (.Int32, r) := by
  simp [parseL, parseT]

theorem parseL_uint32 (r : List Char) : parseL ('u' :: r) = .ok (.UInt32, r) := by
  simp [parseL, parseT]

theorem parseL_int64 (r : List Char) : parseL ('x' :: r) = .ok (.Int64, r) := by
  simp [parseL, parseT]

theorem parseL_uint64 (r : List Char) : parseL ('t' :: r) = .ok (.UInt64, r) := by
  simp [parseL, parseT]

theorem parseL_double (r : List Char) : parseL ('d' :: r) = .ok (.Double, r) := by
  simp [parseL, parseT]

theorem parseL_string (r : List Char) : parseL ('s' :: r) = .ok (.String, r) := by
  simp [parseL, parseT]

theorem parseL_objectPath (r : List Char) : parseL ('o' :: r) = .ok (.ObjectPath, r) := by
  simp [parseL, parseT]

theorem parseL_signature (r : List Char) : parseL ('g' :: r) = .ok (.Signature, r) := by
  simp [parseL, parseT]

theorem parseL_variant (r : List Char) : parseL ('v' :: r) = .ok (.Variant, r) := by
  simp [parseL, parseT]

theorem parseL_array (r : List Char) :
    parseL ('a' :: r) =
      match parseL r with
      | .error e => .error e
      | .ok (t, rem) => .ok (.Array t, rem) := by
  simp only [parseL, parseT]
  cases h : parseT r with
  | error e => simp [h]
  | ok p => obtain ⟨t, rem⟩ := p; simp [h]

theorem parseL_structOpen (r : List Char) : parseL ('(' :: r) = structL r [] := by
  simp only [parseL, parseT, structL]
  cases h : parseStructT r [] with
  | error e => simp [h]
  | ok p => obtain ⟨t, rem⟩ := p; simp [h]

theorem parseL_dictOpen (r : List Char) :
    parseL ('\x7b' :: r) =
      match parseL r with
      | .error e => .error e
      | .ok (key, r1) =>
        match parseL r1 with
        | .error e => .error e
        | .ok (val, r2) =>
          match r2 with
          | '\x7d' :: r3 => .ok (.DictEntry key val, r3)
          | r2 =>
            .error ("expected `\x7d` char to end dictionary in D-Bus type but remainder is "
              ++ strDebug (String.mk r2)) := by
  simp only [parseL, parseT]
  cases h1 : parseT r with
  | error e => simp [h1]
  | ok p =>
    obtain ⟨key, r1⟩ := p
    simp only [h1]
    cases h2 : parseT r1.val with
    | error e => simp [h2]
    | ok q =>
      obtain ⟨val, r2⟩ := q
      simp only [h2]
      match hr : r2.val, r2.property with
      | '\x7d' :: r3, _ => simp [hr]
      | [], _ => simp [hr]
      | c :: r3, _ =>
        by_cases hc : c = '\x7d'
        · subst hc; simp [hr]
        · simp [hr, hc]

theorem parseL_other (c : Char) (r : List Char)
    (hn : c ∉ (['y', 'b', 'n', 'q', 'i', 'u', 'x', 't', 'd', 's', 'o', 'g', 'a', '(', 'v',
      '\x7b'] : List Char)) :
    parseL (c :: r) =
      .error ("unexpected char " ++ charDebug c ++ " in D-Bus type representation") := by
  simp only [List.mem_cons, List.mem_singleton, not_or] at hn
  obtain ⟨h1, h2, h3, h4, h5, h6, h7, h8, h9, h10, h11, h12, h13, h14, h15, h16⟩ := hn
  simp [parseL, parseT, h1, h2, h3, h4, h5, h6, h7, h8, h9, h10, h11, h12, h13, h14, h15, h16]

theorem structL_nil (acc : List DbusType) :
    structL [] acc = .error "unexpected end of D-Bus type string before end of array" := by
  simp [structL, parseStructT]

theorem structL_close (r : List Char) (acc : List DbusType) :
    structL (')' :: r) acc = .ok (.Struct acc.reverse, r) := by
  simp [structL, parseStructT]

theorem strDataAppend (a b : String) : (a ++ b).data = a.data ++ b.data := by
  cases a; cases b; rfl

theorem structL_step (c : Char) (r : List Char) (acc : List DbusType) (hc : c ≠ ')') :
    structL (c :: r) acc =
      match parseL (c :: r) with
      | .error e => .error e
      | .ok (t, rem) => structL rem (t :: acc) := by
  simp only [structL, parseStructT, hc, if_false, parseL]
  cases h : parseT (c :: r) with
  | error e => simp [h]
  | ok p =>
    obtain ⟨t, rem⟩ := p
    simp only [h]
    cases h2 : parseStructT rem.val (t :: acc) with
    | error e => simp [h2]
    | ok q => obtain ⟨t2, r2⟩ := q; simp [h2]

/-- Every stringified type is nonempty and starts with a character other than
`')'` (its one-character code, `a`, `(`, or the opening brace). -/
theorem stringifyHead (t : DbusType) :
    ∃ c cs, (DbusType.stringify t).data = c :: cs ∧ c ≠ ')' := by
  cases t with
  | Byte => exact ⟨'y', [], by simp [DbusType.stringify], by decide⟩
  | Boolean => exact ⟨'b', [], by simp [DbusType.stringify], by decide⟩
  | Int16 => exact ⟨'n', [], by simp [DbusType.stringify], by decide⟩
  | UInt16 => exact ⟨'q', [], by simp [DbusType.stringify], by decide⟩
  | Int32 => exact ⟨'i', [], by simp [DbusType.stringify], by decide⟩
  | UInt32 => exact ⟨'u', [], by simp [DbusType.stringify], by decide⟩
  | Int64 => exact ⟨'x', [], by simp [DbusType.stringify], by decide⟩
  | UInt64 => exact ⟨'t', [], by simp [DbusType.stringify], by decide⟩
  | Double => exact ⟨'d', [], by simp [DbusType.stringify], by decide⟩
  | String => exact ⟨'s', [], by simp [DbusType.stringify], by decide⟩
  | ObjectPath => exact ⟨'o', [], by simp [DbusType.stringify], by decide⟩
  | Signature => exact ⟨'g', [], by simp [DbusType.stringify], by decide⟩
  | Array content =>
    exact ⟨'a', (content.stringify).data, by simp [DbusType.stringify, strDataAppend], by decide⟩
  | Struct types =>
    refine ⟨'(', (stringifyList types).data ++ [')'], ?_, by decide⟩
    simp [DbusType.stringify, strDataAppend]
  | Variant => exact ⟨'v', [], by simp [DbusType.stringify], by decide⟩
  | DictEntry key val =>
    refine ⟨'\x7b', (key.stringify).data ++ (val.stringify).data ++ ['\x7d'], ?_, by decide⟩
    simp [DbusType.stringify, strDataAppend]

mutual

/-- Round-trip at the single-type level: parsing a stringified type followed by
any remainder consumes exactly the stringified form and yields the type back. -/
theorem parseL_stringify (t : DbusType) (r : List Char) :
    parseL ((DbusType.stringify t).data ++ r) = .ok (t, r) := by
  match t with
  | .Byte => simp only [DbusType.stringify]; exact parseL_byte r
  | .Boolean => simp only [DbusType.stringify]; exact parseL_boolean r
  | .Int16 => simp only [DbusType.stringify]; exact parseL_int16 r
  | .UInt16 => simp only [DbusType.stringify]; exact parseL_uint16 r
  | .Int32 => simp only [DbusType.stringify]; exact parseL_int32 r
  | .UInt32 => simp only [DbusType.stringify]; exact parseL_uint32 r
  | .Int64 => simp only [DbusType.stringify]; exact parseL_int64 r
  | .UInt64 => simp only [DbusType.stringify]; exact parseL_uint64 r
  | .Double => simp only [DbusType.stringify]; exact parseL_double r
  | .String => simp only [DbusType.stringify]; exact parseL_string r
  | .ObjectPath => simp only [DbusType.stringify]; exact parseL_objectPath r
  | .Signature => simp only [DbusType.stringify]; exact parseL_signature r
  | .Variant => simp only [DbusType.stringify]; exact parseL_variant r
  | .Array content =>
    have ih := parseL_stringify content r
    simp only [DbusType.stringify, strDataAppend, List.append_assoc]
    rw [show ("a" : String).data ++ ((content.stringify).data ++ r) =
      'a' :: ((content.stringify).data ++ r) from rfl]
    rw [parseL_array, ih]
  | .Struct types =>
    have ih := structL_stringifyList types [] r
    simp only [DbusType.stringify, strDataAppend, List.append_assoc]
    rw [show ("(" : String).data ++ ((stringifyList types).data ++ ((")" : String).data ++ r)) =
      '(' :: ((stringifyList types).data ++ (')' :: r)) from rfl]
    rw [parseL_structOpen, ih]
    simp
  | .DictEntry key val =>
    have ihk := parseL_stringify key ((val.stringify).data ++ ('\x7d' :: r))
    have ihv := parseL_stringify val ('\x7d' :: r)
    simp only [DbusType.stringify, strDataAppend, List.append_assoc]
    rw [show ("\x7b" : String).data ++
        ((key.stringify).data ++ ((val.stringify).data ++ (("\x7d" : String).data ++ r))) =
      '\x7b' :: ((key.stringify).data ++ ((val.stringify).data ++ ('\x7d' :: r))) from rfl]
    rw [parseL_dictOpen, ihk]
    dsimp only
    rw [ihv]
    rfl

/-- Round-trip for the struct loop: parsing the concatenated stringified element
types up to the closing `')'` returns all elements after the accumulator. -/
theorem structL_stringifyList (ts : List DbusType) (acc : List DbusType) (r : List Char) :
    structL ((stringifyList ts).data ++ ')' :: r) acc = .ok (.Struct (acc.reverse ++ ts), r) := by
  match ts with
  | [] =>
    simp only [stringifyList]
    rw [show ("" : String).data ++ ')' :: r = ')' :: r from rfl, structL_close]
    simp
  | t :: ts' =>
    have iht := parseL_stringify t ((stringifyList ts').data ++ ')' :: r)
    have ihts := structL_stringifyList ts' (t :: acc) r
    obtain ⟨c, cs, hdata, hnp⟩ := stringifyHead t
    simp only [stringifyList, strDataAppend, List.append_assoc]
    rw [hdata] at iht ⊢
    rw [show (c :: cs) ++ ((stringifyList ts').data ++ ')' :: r) =
      c :: (cs ++ ((stringifyList ts').data ++ ')' :: r)) from rfl]
    rw [structL_step c _ acc hnp]
    rw [show c :: (cs ++ ((stringifyList ts').data ++ ')' :: r)) =
      (c :: cs) ++ ((stringifyList ts').data ++ ')' :: r) from rfl]
    rw [iht]
    dsimp only
    rw [ihts]
    simp

end

/-- Modelled from the spec: `stringify_all` denotes the concatenation of the
stringified forms of a sequence of WireTypes (the spec shorthand used in the
round-trip law; the source exposes only the single-type `stringify`). -/
def DbusType.stringify_all (ts : List DbusType) : Str :=
  stringifyList ts

theorem parseAllL_nil : parseAllL [] = .ok [] := by
  simp [parseAllL]

theorem parseAllL_cons (c : Char) (rest : List Char) :
    parseAllL (c :: rest) =
      match parseL (c :: rest) with
      | .error e => .error e
      | .ok (t, r) =>
        match parseAllL r with
        | .error e => .error e
        | .ok ts => .ok (t :: ts) := by
  rw [parseAllL]
  split <;> (rename_i h; simp [h])

/-- Round-trip at the sequence level, on character lists. -/
theorem parseAllL_stringify (ts : List DbusType) :
    parseAllL (stringifyList ts).data = .ok ts := by
  induction ts with
  | nil =>
    simp only [stringifyList]
    exact parseAllL_nil
  | cons t ts ih =>
    have hp := parseL_stringify t ((stringifyList ts).data)
    obtain ⟨c, cs, hdata, _⟩ := stringifyHead t
    simp only [stringifyList, strDataAppend]
    rw [hdata] at hp ⊢
    rw [show (c :: cs) ++ (stringifyList ts).data = c :: (cs ++ (stringifyList ts).data) from rfl]
    rw [parseAllL_cons]
    rw [show c :: (cs ++ (stringifyList ts).data) = (c :: cs) ++ (stringifyList ts).data from rfl]
    rw [hp]
    dsimp only
    rw [ih]

/-- Unfolding of the `String`-level `parse` on an explicit character list. -/
theorem parse_mk (l : List Char) :
    DbusType.parse (String.mk l) =
      match parseL l with
      | .error e => .error e
      | .ok (t, r) => .ok (t, String.mk r) := rfl

/-- C1: round-trip law for the signature grammar: parsing the concatenation of
the stringified forms of any sequence of types yields exactly that sequence,
and on any string that is canonical (the stringified form of some type) with
no trailing characters, `parse` consumes everything and `stringify` of the
result reproduces the string. -/
theorem claim1_signature_roundtrip :
    (∀ ts : List DbusType, DbusType.parse_all (DbusType.stringify_all ts) = .ok ts) ∧
    (∀ (s : Str) (t : DbusType), DbusType.stringify t = s →
      ∃ t' r, DbusType.parse s = .ok (t', r) ∧ r = "" ∧ DbusType.stringify t' = s) := by
  constructor
  · intro ts
    simp only [DbusType.parse_all, DbusType.stringify_all]
    exact parseAllL_stringify ts
  · rintro s t rfl
    refine ⟨t, "", ?_, rfl, rfl⟩
    have hp := parseL_stringify t []
    rw [List.append_nil] at hp
    simp only [DbusType.parse, hp]

/-- Witness for C1 at the canonical string for the type a{sv}. -/
theorem claim1_signature_roundtrip_witness :
    ∃ t' r, DbusType.parse "a\x7bsv\x7d" = .ok (t', r) ∧ r = "" ∧
      DbusType.stringify t' = "a\x7bsv\x7d" :=
  claim1_signature_roundtrip.2 "a\x7bsv\x7d" (.Array (.DictEntry .String .Variant))
    (by simp only [DbusType.stringify]; rfl)

/-- C2: `parse` consumes exactly one type from the front of the input and
returns it with the unconsumed suffix: each single-character code maps to its
scalar type, `a` recursively consumes one following type and wraps it in
`Array`, `(` parses inner types until `)` (with `()` yielding an empty
struct), the opening brace parses exactly two inner types and then requires
the closing brace; any other leading character, empty input, or an
unterminated struct/dict is an error rather than a crash, and
`parse_all ""` is the empty sequence, not an error. -/
theorem claim2_parse_dispatch :
    (∀ r : List Char, DbusType.parse ⟨'y' :: r⟩ = .ok (.Byte, ⟨r⟩)) ∧
    (∀ r : List Char, DbusType.parse ⟨'b' :: r⟩ = .ok (.Boolean, ⟨r⟩)) ∧
    (∀ r : List Char, DbusType.parse ⟨'n' :: r⟩ = .ok (.Int16, ⟨r⟩)) ∧
    (∀ r : List Char, DbusType.parse ⟨'q' :: r⟩ = .ok (.UInt16, ⟨r⟩)) ∧
    (∀ r : List Char, DbusType.parse ⟨'i' :: r⟩ = .ok (.Int32, ⟨r⟩)) ∧
    (∀ r : List Char, DbusType.parse ⟨'u' :: r⟩ = .ok (.UInt32, ⟨r⟩)) ∧
    (∀ r : List Char, DbusType.parse ⟨'x' :: r⟩ = .ok (.Int64, ⟨r⟩)) ∧
    (∀ r : List Char, DbusType.parse ⟨'t' :: r⟩ = .ok (.UInt64, ⟨r⟩)) ∧
    (∀ r : List Char, DbusType.parse ⟨'d' :: r⟩ = .ok (.Double, ⟨r⟩)) ∧
    (∀ r : List Char, DbusType.parse ⟨'s' :: r⟩ = .ok (.String, ⟨r⟩)) ∧
    (∀ r : List Char, DbusType.parse ⟨'o' :: r⟩ = .ok (.ObjectPath, ⟨r⟩)) ∧
    (∀ r : List Char, DbusType.parse ⟨'g' :: r⟩ = .ok (.Signature, ⟨r⟩)) ∧
    (∀ r : List Char, DbusType.parse ⟨'v' :: r⟩ = .ok (.Variant, ⟨r⟩)) ∧
    (∀ (r r' : List Char) (t : DbusType), DbusType.parse ⟨r⟩ = .ok (t, ⟨r'⟩) →
      DbusType.parse ⟨'a' :: r⟩ = .ok (.Array t, ⟨r'⟩)) ∧
    (∀ r : List Char, DbusType.parse ⟨'(' :: ')' :: r⟩ = .ok (.Struct [], ⟨r⟩)) ∧
    (∀ (ts : List DbusType) (r : List Char),
      DbusType.parse ⟨'(' :: ((stringifyList ts).data ++ ')' :: r)⟩ = .ok (.Struct ts, ⟨r⟩)) ∧
    (∀ (r r1 r2 : List Char) (k v : DbusType),
      DbusType.parse ⟨r⟩ = .ok (k, ⟨r1⟩) →
      DbusType.parse ⟨r1⟩ = .ok (v, ⟨'\x7d' :: r2⟩) →
      DbusType.parse ⟨'\x7b' :: r⟩ = .ok (.DictEntry k v, ⟨r2⟩)) ∧
    (∀ (c : Char) (r : List Char),
      c ∉ (['y', 'b', 'n', 'q', 'i', 'u', 'x', 't', 'd', 's', 'o', 'g', 'a', '(', 'v',
        '\x7b'] : List Char) → ∃ e, DbusType.parse ⟨c :: r⟩ = .error e) ∧
    (∃ e, DbusType.parse "" = .error e) ∧
    (∃ e, DbusType.parse "*" = .error e) ∧
    (∃ e, DbusType.parse "a" = .error e) ∧
    (∃ e, DbusType.parse "(ss" = .error e) ∧
    (∃ e, DbusType.parse "\x7bss" = .error e) ∧
    DbusType.parse_all "" = .ok [] := by
  refine ⟨?_, ?_, ?_, ?_, ?_, ?_, ?_, ?_, ?_, ?_, ?_, ?_, ?_, ?_, ?_, ?_, ?_, ?_, ?_, ?_, ?_,
    ?_, ?_, ?_⟩
  · intro r; rw [parse_mk, parseL_byte]
  · intro r; rw [parse_mk, parseL_boolean]
  · intro r; rw [parse_mk, parseL_int16]
  · intro r; rw [parse_mk, parseL_uint16]
  · intro r; rw [parse_mk, parseL_int32]
  · intro r; rw [parse_mk, parseL_uint32]
  · intro r; rw [parse_mk, parseL_int64]
  · intro r; rw [parse_mk, parseL_uint64]
  · intro r; rw [parse_mk, parseL_double]
  · intro r; rw [parse_mk, parseL_string]
  · intro r; rw [parse_mk, parseL_objectPath]
  · intro r; rw [parse_mk, parseL_signature]
  · intro r; rw [parse_mk, parseL_variant]
  · intro r r' t h
    rw [parse_mk] at h ⊢
    rw [parseL_array]
    cases hp : parseL r with
    | error e => rw [hp] at h; exact absurd h (by simp)
    | ok p =>
      obtain ⟨t2, r2⟩ := p
      rw [hp] at h
      simp only [Except.ok.injEq, Prod.mk.injEq] at h
      obtain ⟨h1, h2⟩ := h
      have h2' : r2 = r' := congrArg String.data h2
      subst h1; subst h2'
      rfl
  · intro r
    rw [parse_mk, parseL_structOpen, structL_close]
    rfl
  · intro ts r
    rw [parse_mk, parseL_structOpen, structL_stringifyList]
    simp
  · intro r r1 r2 k v hk hv
    rw [parse_mk] at hk hv ⊢
    rw [parseL_dictOpen]
    cases hpk : parseL r with
    | error e => rw [hpk] at hk; exact absurd hk (by simp)
    | ok p =>
      obtain ⟨k2, rk⟩ := p
      rw [hpk] at hk
      simp only [Except.ok.injEq, Prod.mk.injEq] at hk
      obtain ⟨hk1, hk2⟩ := hk
      have hk2' : rk = r1 := congrArg String.data hk2
      subst hk1; subst hk2'
      dsimp only
      cases hpv : parseL rk with
      | error e => rw [hpv] at hv; exact absurd hv (by simp)
      | ok q =>
        obtain ⟨v2, rv⟩ := q
        rw [hpv] at hv
        simp only [Except.ok.injEq, Prod.mk.injEq] at hv
        obtain ⟨hv1, hv2⟩ := hv
        have hv2' : rv = '\x7d' :: r2 := congrArg String.data hv2
        subst hv1; subst hv2'
        rfl
  · intro c r hn
    refine ⟨"unexpected char " ++ charDebug c ++ " in D-Bus type representation", ?_⟩
    rw [parse_mk, parseL_other c r hn]
  · refine ⟨"unexpected end of D-Bus type string", ?_⟩
    rw [show ("" : String) = String.mk [] from rfl, parse_mk, parseL_nil]
  · refine ⟨"unexpected char " ++ charDebug '*' ++ " in D-Bus type representation", ?_⟩
    rw [show ("*" : String) = String.mk ['*'] from rfl, parse_mk,
      parseL_other '*' [] (by decide)]
  · refine ⟨"unexpected end of D-Bus type string", ?_⟩
    rw [show ("a" : String) = String.mk ['a'] from rfl, parse_mk, parseL_array, parseL_nil]
  · refine ⟨"unexpected end of D-Bus type string before end of array", ?_⟩
    rw [show ("(ss" : String) = String.mk ['(', 's', 's'] from rfl, parse_mk,
      parseL_structOpen, structL_step 's' ['s'] [] (by decide), parseL_string]
    dsimp only
    rw [structL_step 's' [] [.String] (by decide), parseL_string]
    dsimp only
    rw [structL_nil]
  · refine ⟨"expected `\x7d` char to end dictionary in D-Bus type but remainder is "
      ++ strDebug (String.mk []), ?_⟩
    rw [show ("\x7bss" : String) = String.mk ['\x7b', 's', 's'] from rfl, parse_mk,
      parseL_dictOpen, parseL_string]
    dsimp only
    rw [parseL_string]
  · rw [show ("" : String) = String.mk [] from rfl]
    exact parseAllL_nil

/-- Witness for C2 instantiating the hypothesis-bearing clauses: the `a` clause
at input ai, and the dict clause at input {si}. -/
theorem claim2_parse_dispatch_witness :
    DbusType.parse ⟨'a' :: ['i']⟩ = .ok (.Array .Int32, ⟨[]⟩) ∧
    DbusType.parse ⟨'\x7b' :: ['s', 'i', '\x7d']⟩ = .ok (.DictEntry .String .Int32, ⟨[]⟩) := by
  constructor
  · exact claim2_parse_dispatch.2.2.2.2.2.2.2.2.2.2.2.2.2.1 ['i'] [] .Int32
      (by rw [parse_mk, parseL_int32])
  · exact claim2_parse_dispatch.2.2.2.2.2.2.2.2.2.2.2.2.2.2.2.2.1 ['s', 'i', '\x7d'] ['i', '\x7d']
      [] .String .Int32 (by rw [parse_mk, parseL_string]) (by rw [parse_mk, parseL_int32])

/-
  Host values and wire values (src/convert.rs).

  `Value` models the nushell `nu_protocol::Value` variants the converter
  handles, plus `nothing` standing for any further host value kind
  (`Value::Nothing` etc.).  A record is an ordered list of string/value
  entries; `Record::insert` is modelled as appending (a D-Bus dictionary
  cannot produce duplicate keys).  Floats are carried unchanged.

  `MessageItem` models `dbus::arg::messageitem::MessageItem`, which also
  serves as the model of a received `RefArg`: a wire argument is
  self-describing, and iterating a dictionary yields keys and values
  alternately, which is what the flattened-items view of `array` with a
  dict signature captures.
-/

/-- Host value model (nushell `Value` as used by src/convert.rs). -/
inductive Value where
  | bool (val : Bool)
  | int (val : Int)
  | float (val : Float)
  | string (val : Str)
  | binary (val : List Nat)
  | list (vals : List Value)
  | record (val : List (Str × Value))
  | nothing

/-- Coarse model of the `Display` of `nu_protocol::Type` used in error text
(`value.get_type()`); no claim depends on these exact strings. -/
def Value.typeName : Value → Str
  | .bool _ => "bool"
  | .int _ => "int"
  | .float _ => "float"
  | .string _ => "string"
  | .binary _ => "binary"
  | .list _ => "list"
  | .record _ => "record"
  | .nothing => "nothing"

/-- Wire value model (`dbus::arg::messageitem::MessageItem`, also standing in
for a received `RefArg`). `array` carries the full array signature, as
`MessageItemArray` does; `dict` carries the key and value signatures, as
`MessageItemDict` does. -/
inductive MessageItem where
  | bool (b : Bool)
  | byte (b : Nat)
  | int16 (i : Int)
  | uint16 (u : Nat)
  | int32 (i : Int)
  | uint32 (u : Nat)
  | int64 (i : Int)
  | uint64 (u : Nat)
  | double (d : Float)
  | str (s : Str)
  | objectPath (p : Str)
  | signature (s : Str)
  | array (items : List MessageItem) (sig : Str)
  | structItem (items : List MessageItem)
  | dict (pairs : List (MessageItem × MessageItem)) (keySig valSig : Str)
  | variant (item : MessageItem)
  | unixFd (fd : Int)
  | dictEntryItem (key val : MessageItem)
  | invalid

/-- Model of the plugin's `LabeledError`: the main message plus the texts of
the attached labels (spans carry no semantic content and are omitted).
`LabeledError { label, msg, span }` in src/client.rs maps to
`⟨label, [msg]⟩`; `LabeledError::new(m).with_label(l, span)` in
src/convert.rs maps to `⟨m, [l]⟩`. -/
structure LabeledErrorM where
  msg : Str
  labels : List Str

/-- `RefArg::as_str`: `Some` exactly for the three string-like wire types. -/
def MessageItem.asStr : MessageItem → Option Str
  | .str s => some s
  | .objectPath s => some s
  | .signature s => some s
  | _ => none

/-- Extraction of a byte element of an `ay` array (the `cast::<Vec<u8>>`
in `from_refarg`, which cannot fail on a well-formed byte array; non-byte
elements cannot occur under an `ay` signature). -/
def getByte : MessageItem → Nat
  | .byte b => b
  | _ => 0

/-- Rust `str::starts_with` on character lists (first argument the string,
second the pattern). -/
def startsWithA : List Char → List Char → Bool
  | _, [] => true
  | [], _ :: _ => false
  | c :: cs, p :: ps => c = p && startsWithA cs ps

mutual

/-- Decode one wire argument into a nushell value (src/convert.rs
`from_refarg`). Dispatches on the runtime type tag; the `Array` arm checks
the value's signature to distinguish dictionaries and byte arrays. -/
def from_refarg : MessageItem → Except Str Value
  | .array items sig =>
    if startsWithA sig.data ['a', '\x7b'] then
      match decodeDictItems items with
      | .error e => .error e
      | .ok entries => .ok (.record entries)
    else if sig = "ay" then
      .ok (.binary (items.map getByte))
    else
      .ok (.list (decodeListItems items))
  | .dict pairs _ _ =>
    match decodeDictPairs pairs with
    | .error e => .error e
    | .ok entries => .ok (.record entries)
  | .variant inner => from_refarg inner
  | .bool b => .ok (.bool b)
  | .str s => .ok (.string s)
  | .objectPath s => .ok (.string s)
  | .signature s => .ok (.string s)
  | .byte n => .ok (.int n)
  | .int16 i => .ok (.int i)
  | .uint16 u => .ok (.int u)
  | .int32 i => .ok (.int i)
  | .uint32 u => .ok (.int u)
  | .int64 i => .ok (.int i)
  | .unixFd i => .ok (.int i)
  | .uint64 u => .ok (.string (toString u))
  | .double d => .ok (.float d)
  | .structItem items => .ok (.list (decodeListItems items))
  | .dictEntryItem _ _ => .error "Encountered dictionary entry outside of dictionary"
  | .invalid => .error "Encountered invalid D-Bus value"
termination_by m => (sizeOf m, 1)

/-- The element-wise array/struct decode (the `flat_map` over `from_refarg`):
elements that fail to decode are dropped, the rest kept in order. -/
def decodeListItems : List MessageItem → List Value
  | [] => []
  | x :: rest =>
    match from_refarg x with
    | .ok v => v :: decodeListItems rest
    | .error _ => decodeListItems rest
termination_by l => (sizeOf l, 0)

/-- The dictionary decode loop over the flattened alternating key/value
iteration of a dict array: a pair whose key is not a string is skipped; a
failure to decode a value propagates; a trailing key with no value is
dropped. -/
def decodeDictItems : List MessageItem → Except Str (List (Str × Value))
  | [] => .ok []
  | [_] => .ok []
  | k :: v :: rest =>
    match k.asStr with
    | some ks =>
      match from_refarg v with
      | .error e => .error e
      | .ok val =>
        match decodeDictItems rest with
        | .error e => .error e
        | .ok tail => .ok ((ks, val) :: tail)
    | none => decodeDictItems rest
termination_by l => (sizeOf l, 0)

/-- The same dictionary decode loop, on the paired view carried by a
`MessageItem::Dict` value. -/
def decodeDictPairs : List (MessageItem × MessageItem) → Except Str (List (Str × Value))
  | [] => .ok []
  | (k, v) :: rest =>
    match k.asStr with
    | some ks =>
      match from_refarg v with
      | .error e => .error e
      | .ok val =>
        match decodeDictPairs rest with
        | .error e => .error e
        | .ok tail => .ok ((ks, val) :: tail)
    | none => decodeDictPairs rest
termination_by l => (sizeOf l, 0)

end

mutual

/-- Rust `Debug` formatting of a `DbusType` (derived `Debug` in
src/dbus_type.rs), used inside encoder error messages. -/
def debugFmt : DbusType → Str
  | .Byte => "Byte"
  | .Boolean => "Boolean"
  | .Int16 => "Int16"
  | .UInt16 => "UInt16"
  | .Int32 => "Int32"
  | .UInt32 => "UInt32"
  | .Int64 => "Int64"
  | .UInt64 => "UInt64"
  | .Double => "Double"
  | .String => "String"
  | .ObjectPath => "ObjectPath"
  | .Signature => "Signature"
  | .Array content => "Array(" ++ debugFmt content ++ ")"
  | .Struct types => "Struct([" ++ debugFmtList types ++ "])"
  | .Variant => "Variant"
  | .DictEntry key val => "DictEntry(" ++ debugFmt key ++ ", " ++ debugFmt val ++ ")"

/-- Comma-separated `Debug` list body (Rust `{:?}` of a `Vec<DbusType>`
without the surrounding brackets). -/
def debugFmtList : List DbusType → Str
  | [] => ""
  | [t] => debugFmt t
  | t :: t2 :: ts => debugFmt t ++ ", " ++ debugFmtList (t2 :: ts)

end

/-- Rust `Debug` formatting of a `Vec<DbusType>` (`{:?}`). -/
def debugFmtVec (ts : List DbusType) : Str :=
  "[" ++ debugFmtList ts ++ "]"

/-- Display text of Rust `TryFromIntError` (checked integer narrowing). -/
def tryFromIntError : Str := "out of range integral type conversion attempted"

/-- Model of Rust `TryFrom<i64>` into a signed width with the inclusive
bounds `lo`/`hi`. -/
def intToBounded (lo hi v : Int) : Except Str Int :=
  if v < lo ∨ hi < v then .error tryFromIntError else .ok v

/-- Model of Rust `TryFrom<i64>` into an unsigned width with inclusive upper
bound `hi` (the upper test never fires for genuine `i64` inputs of the
wider targets; it makes the model total on `Int`). -/
def intToUnsigned (hi : Nat) (v : Int) : Except Str Nat :=
  if v < 0 ∨ (hi : Int) < v then .error tryFromIntError else .ok v.toNat

/-- Numeric value of a decimal digit. -/
def digitVal (c : Char) : Option Nat :=
  if '0' ≤ c ∧ c ≤ '9' then some (c.toNat - '0'.toNat) else none

/-- The digit-accumulation loop of Rust `from_str` for unsigned integers,
with inclusive upper bound `hi`. -/
def parseDigitsAcc (hi : Nat) : Nat → List Char → Except Str Nat
  | acc, [] => .ok acc
  | acc, c :: rest =>
    match digitVal c with
    | none => .error "invalid digit found in string"
    | some d =>
      if hi < acc * 10 + d then .error "number too large to fit in target type"
      else parseDigitsAcc hi (acc * 10 + d) rest

/-- The digit-accumulation loop of Rust `from_str` for the negative branch of
signed integers: the accumulated magnitude may not exceed `loMag`. -/
def parseNegDigitsAcc (loMag : Nat) : Nat → List Char → Except Str Nat
  | acc, [] => .ok acc
  | acc, c :: rest =>
    match digitVal c with
    | none => .error "invalid digit found in string"
    | some d =>
      if loMag < acc * 10 + d then .error "number too small to fit in target type"
      else parseNegDigitsAcc loMag (acc * 10 + d) rest

/-- Model of Rust `from_str` for unsigned integer types with inclusive upper
bound `hi`: optional `+` sign, one or more decimal digits, bound check; a
`-` is an invalid digit. -/
def parseUnsigned (hi : Nat) (s : Str) : Except Str Nat :=
  match s.data with
  | [] => .error "cannot parse integer from empty string"
  | ['+'] => .error "invalid digit found in string"
  | '+' :: rest => parseDigitsAcc hi 0 rest
  | l => parseDigitsAcc hi 0 l

/-- Model of Rust `from_str` for signed integer types whose range is
`[-loMag, hi]`: optional sign and one or more decimal digits. -/
def parseSigned (loMag hi : Nat) (s : Str) : Except Str Int :=
  match s.data with
  | [] => .error "cannot parse integer from empty string"
  | ['+'] => .error "invalid digit found in string"
  | ['-'] => .error "invalid digit found in string"
  | '+' :: rest =>
    match parseDigitsAcc hi 0 rest with
    | .error e => .error e
    | .ok n => .ok (n : Int)
  | '-' :: rest =>
    match parseNegDigitsAcc loMag 0 rest with
    | .error e => .error e
    | .ok n => .ok (-(n : Int))
  | l =>
    match parseDigitsAcc hi 0 l with
    | .error e => .error e
    | .ok n => .ok (n : Int)

/-- Coarse model of the external `f64::from_str` (no claim exercises this
arm): optional sign and decimal digits, without fractions or exponents. -/
def f64FromStr (s : Str) : Except Str Float :=
  match parseSigned (2 ^ 63) (2 ^ 63 - 1) s with
  | .error e => .error e
  | .ok i => .ok (Float.ofInt i)

/-- Character set of D-Bus object path segments. -/
def validPathChar (c : Char) : Bool :=
  c.isAlphanum || c = '_'

/-- Tail scan for the object path validator: no empty segment, valid segment
characters, no trailing separator. -/
def pathTail : List Char → Bool
  | [] => true
  | ['/'] => false
  | '/' :: '/' :: _ => false
  | '/' :: c :: rest => validPathChar c && pathTail (c :: rest)
  | c :: rest => validPathChar c && pathTail rest

/-- Model of the external `dbus::strings::Path::new` validation (no claim
depends on its exact acceptance set or error text). -/
def pathNew (s : Str) : Except Str Str :=
  if s = "/" then .ok s
  else
    match s.data with
    | '/' :: c :: rest => if validPathChar c && pathTail (c :: rest) then .ok s
        else .error "invalid object path"
    | _ => .error "invalid object path"

/-- Model of the external `dbus::strings::Signature::new` validation:
accepts strings that parse as a sequence of complete types (no claim
exercises a failure of this validator). -/
def signatureNew (s : Str) : Except Str Str :=
  match DbusType.parse_all s with
  | .ok _ => .ok s
  | .error _ => .error "invalid signature"

/-- The error wrapper built by the `try_convert!` helper in `to_message_item`:
the main message names the expected type, the label carries the display of
the underlying conversion error. -/
def convErr (t : DbusType) (err : Str) : LabeledErrorM :=
  ⟨"Failed to convert value to the D-Bus `" ++ debugFmt t ++ "` type", [err]⟩

/-- The struct arity-mismatch error of `to_message_item`, citing the expected
element count (with the expected types) and the actual list length. -/
def structArityError (types : List DbusType) (got : Nat) : LabeledErrorM :=
  ⟨"expected struct with " ++ toString types.length ++ " element(s) (" ++ debugFmtVec types ++ ")",
    ["this list has " ++ toString got ++ " element(s) instead"]⟩

/-- The incompatible value/type error of `to_message_item`. -/
def incompatibleError (v : Value) (expectation : DbusType) : LabeledErrorM :=
  ⟨"`" ++ v.typeName ++ "` can not be converted to the D-Bus `" ++ debugFmt expectation
    ++ "` type", ["expected a `" ++ debugFmt expectation ++ "` here"]⟩

/-- The unsupported-kind error of `to_message_item` when no expected type is
available and no default applies. -/
def unsupportedError (v : Value) : LabeledErrorM :=
  ⟨"can not use values of type `" ++ v.typeName ++ "` in D-Bus calls",
    ["use a supported type here instead"]⟩

/-- Measure on the expected-type argument of `to_message_item` making its
recursion well-founded: a `Variant` expectation steps to no expectation,
which steps to one of the fixed non-`Variant` defaults. -/
@[simp]
def typeRank : Option DbusType → Nat
  | some .Variant => 2
  | none => 1
  | some _ => 0

mutual

/-- Encode a nushell value against an optional expected D-Bus type
(src/convert.rs `to_message_item`), with the match arms in source order. -/
def to_message_item : Value → Option DbusType → Except LabeledErrorM MessageItem
  | .bool b, some .Boolean => .ok (.bool b)
  | .string s, some .String => .ok (.str s)
  | .string s, some .ObjectPath =>
    match pathNew s with
    | .error e => .error (convErr .ObjectPath e)
    | .ok p => .ok (.objectPath p)
  | .string s, some .Signature =>
    match signatureNew s with
    | .error e => .error (convErr .Signature e)
    | .ok sg => .ok (.signature sg)
  | .int v, some .Int64 => .ok (.int64 v)
  | .int v, some .Int32 =>
    match intToBounded (-2147483648) 2147483647 v with
    | .error e => .error (convErr .Int32 e)
    | .ok i => .ok (.int32 i)
  | .int v, some .Int16 =>
    match intToBounded (-32768) 32767 v with
    | .error e => .error (convErr .Int16 e)
    | .ok i => .ok (.int16 i)
  | .int v, some .UInt64 =>
    match intToUnsigned 18446744073709551615 v with
    | .error e => .error (convErr .UInt64 e)
    | .ok u => .ok (.uint64 u)
  | .int v, some .UInt32 =>
    match intToUnsigned 4294967295 v with
    | .error e => .error (convErr .UInt32 e)
    | .ok u => .ok (.uint32 u)
  | .int v, some .UInt16 =>
    match intToUnsigned 65535 v with
    | .error e => .error (convErr .UInt16 e)
    | .ok u => .ok (.uint16 u)
  | .int v, some .Byte =>
    match intToUnsigned 255 v with
    | .error e => .error (convErr .Byte e)
    | .ok u => .ok (.byte u)
  | .string s, some .Int64 =>
    match parseSigned 9223372036854775808 9223372036854775807 s with
    | .error e => .error (convErr .Int64 e)
    | .ok i => .ok (.int64 i)
  | .string s, some .Int32 =>
    match parseSigned 2147483648 2147483647 s with
    | .error e => .error (convErr .Int32 e)
    | .ok i => .ok (.int32 i)
  | .string s, some .Int16 =>
    match parseSigned 32768 32767 s with
    | .error e => .error (convErr .Int16 e)
    | .ok i => .ok (.int16 i)
  | .string s, some .UInt64 =>
    match parseUnsigned 18446744073709551615 s with
    | .error e => .error (convErr .UInt64 e)
    | .ok u => .ok (.uint64 u)
  | .string s, some .UInt32 =>
    match parseUnsigned 4294967295 s with
    | .error e => .error (convErr .UInt32 e)
    | .ok u => .ok (.uint32 u)
  | .string s, some .UInt16 =>
    match parseUnsigned 65535 s with
    | .error e => .error (convErr .UInt16 e)
    | .ok u => .ok (.uint16 u)
  | .string s, some .Byte =>
    match parseUnsigned 255 s with
    | .error e => .error (convErr .Byte e)
    | .ok u => .ok (.byte u)
  | .float f, some .Double => .ok (.double f)
  | .string s, some .Double =>
    match f64FromStr s with
    | .error e => .error (convErr .Double e)
    | .ok f => .ok (.double f)
  | .binary bs, some (.Array .Byte) =>
    .ok (.array (bs.map MessageItem.byte) (DbusType.stringify (.Array .Byte)))
  | .list vals, some (.Array contentType) =>
    match encodeArrayElems vals contentType with
    | .error e => .error e
    | .ok items => .ok (.array items (DbusType.stringify (.Array contentType)))
  | .list vals, some (.Struct types) =>
    if vals.length ≠ types.length then .error (structArityError types vals.length)
    else
      match encodeStructElems vals types with
      | .error e => .error e
      | .ok items => .ok (.structItem items)
  | .record entries, some (.Array (.DictEntry keyType valType)) =>
    match encodeDictEntries entries keyType valType with
    | .error e => .error e
    | .ok pairs => .ok (.dict pairs keyType.stringify valType.stringify)
  | otherValue, some .Variant =>
    match to_message_item otherValue none with
    | .error e => .error e
    | .ok item => .ok (.variant item)
  | otherValue, some expectation => .error (incompatibleError otherValue expectation)
  | .string s, none => to_message_item (.string s) (some .String)
  | .int v, none => to_message_item (.int v) (some .Int64)
  | .float f, none => to_message_item (.float f) (some .Double)
  | .bool b, none => to_message_item (.bool b) (some .Boolean)
  | .list vals, none => to_message_item (.list vals) (some (.Array .Variant))
  | .record entries, none =>
    to_message_item (.record entries) (some (.Array (.DictEntry .String .Variant)))
  | otherValue, none => .error (unsupportedError otherValue)
termination_by v t => (sizeOf v, typeRank t)

/-- The element loop of the array arm of `to_message_item`: each element is
encoded against the array content type; the first failure aborts. -/
def encodeArrayElems : List Value → DbusType → Except LabeledErrorM (List MessageItem)
  | [], _ => .ok []
  | v :: rest, contentType =>
    match to_message_item v (some contentType) with
    | .error e => .error e
    | .ok item =>
      match encodeArrayElems rest contentType with
      | .error e => .error e
      | .ok items => .ok (item :: items)
termination_by vs _ => (sizeOf vs, 0)

/-- The element loop of the struct arm of `to_message_item`: positional
zip of the values with the struct element types. -/
def encodeStructElems : List Value → List DbusType → Except LabeledErrorM (List MessageItem)
  | [], _ => .ok []
  | _ :: _, [] => .ok []
  | v :: vs, t :: ts =>
    match to_message_item v (some t) with
    | .error e => .error e
    | .ok item =>
      match encodeStructElems vs ts with
      | .error e => .error e
      | .ok items => .ok (item :: items)
termination_by vs _ => (sizeOf vs, 0)

/-- The entry loop of the record arm of `to_message_item`: each key is
re-wrapped as a string value and encoded against the key type, each value
against the value type, in record iteration order. -/
def encodeDictEntries :
    List (Str × Value) → DbusType → DbusType →
      Except LabeledErrorM (List (MessageItem × MessageItem))
  | [], _, _ => .ok []
  | (k, v) :: rest, keyType, valType =>
    match to_message_item (.string k) (some keyType) with
    | .error e => .error e
    | .ok keyItem =>
      match to_message_item v (some valType) with
      | .error e => .error e
      | .ok valItem =>
        match encodeDictEntries rest keyType valType with
        | .error e => .error e
        | .ok tail => .ok ((keyItem, valItem) :: tail)
termination_by es _ _ => (sizeOf es, 0)

end

/-
  Signature resolution policy (src/client.rs `DbusClient::call`,
  lines 176-226).  The connection itself and the introspection transport are
  external collaborators: the model takes the outcome of
  `get_method_signature_by_introspection` as a parameter, and stops after
  the arguments have been converted to message items (the subsequent send
  is transport I/O).  Warnings printed with `eprintln!` are collected in a
  list instead.
-/

/-- The per-argument expected types used by `call`: the resolved signature's
types, padded with `None` past its end (`sigs_iter` is the signature chained
with `repeat(None)`, truncated by the zip with the argument list). -/
def sigsFor (sig : Option (List DbusType)) (n : Nat) : List (Option DbusType) :=
  match sig with
  | none => List.replicate n none
  | some ts => ((ts.map some) ++ List.replicate n none).take n

/-- The argument-conversion loop of `call`: each argument is converted with
`to_message_item` against its entry of `sigs_iter`; the first failure aborts. -/
def encodeArgs (sig : Option (List DbusType)) (args : List Value) :
    Except LabeledErrorM (List MessageItem) :=
  (args.zip (sigsFor sig args.length)).mapM (fun p => to_message_item p.1 p.2)

/-- The warning printed when introspection fails (`eprintln!` in `call`),
formatted from the object path and the failure's label text. -/
def introWarning (obj : Str) (err : LabeledErrorM) : Str :=
  "Warning: D-Bus introspection failed on " ++ strDebug obj
    ++ ". Use `--no-introspect` or pass `--signature` to silence this warning. Cause: "
    ++ err.msg

/-- The signature-resolution and argument-encoding portion of
`DbusClient::call`: parse a supplied signature string (failure aborts),
otherwise consult introspection when enabled (failure only warns), then
compute the arity diagnostic (which the source constructs and discards), and
convert the arguments. Returns the converted message items together with the
warnings emitted along the way. -/
def callEncode (obj : Str) (signature : Option Str) (introspectFlag : Bool)
    (introspectResult : Except LabeledErrorM (List DbusType)) (args : List Value) :
    Except LabeledErrorM (List MessageItem × List Str) :=
  match (match signature with
         | none => (.ok none : Except LabeledErrorM (Option (List DbusType)))
         | some s =>
           match DbusType.parse_all s with
           | .error e => .error ⟨e, ["in signature specified here"]⟩
           | .ok ts => .ok (some ts)) with
  | .error e => .error e
  | .ok parsed =>
    let resolvedWarn : Option (List DbusType) × List Str :=
      match parsed, introspectFlag with
      | none, true =>
        match introspectResult with
        | .ok sig => (some sig, [])
        | .error err => (none, [introWarning obj err])
      | p, _ => (p, [])
    let _diag : Option LabeledErrorM :=
      match resolvedWarn.1 with
      | some sig =>
        if sig.length ≠ args.length then
          some ⟨"expected " ++ toString sig.length ++ " arguments, got "
            ++ toString args.length, ["while calling a D-Bus method"]⟩
        else none
      | none => none
    match encodeArgs resolvedWarn.1 args with
    | .error e => .error e
    | .ok items => .ok (items, resolvedWarn.2)

/-- C3: signature resolution for a call: a supplied signature string that
fails to parse aborts the whole call with that error; when no signature was
supplied and the introspection lookup fails, the call does not abort but
emits a warning and falls back to encoding with no expected type; and a
resolved signature whose arity differs from the argument count does not
abort the call — the result is the same as with a matching arity (the
diagnostic is constructed but non-fatal). -/
theorem claim3_signature_resolution :
    (∀ (obj s : Str) (flag : Bool) (ir : Except LabeledErrorM (List DbusType))
        (args : List Value) (e : Str),
      DbusType.parse_all s = .error e →
      callEncode obj (some s) flag ir args = .error ⟨e, ["in signature specified here"]⟩) ∧
    (∀ (obj : Str) (err : LabeledErrorM) (args : List Value),
      callEncode obj none true (.error err) args =
        match encodeArgs none args with
        | .error e => .error e
        | .ok items => .ok (items, [introWarning obj err])) ∧
    (∀ (obj s : Str) (flag : Bool) (ir : Except LabeledErrorM (List DbusType))
        (args : List Value) (ts : List DbusType),
      DbusType.parse_all s = .ok ts →
      callEncode obj (some s) flag ir args =
        match encodeArgs (some ts) args with
        | .error e => .error e
        | .ok items => .ok (items, [])) := by
  refine ⟨?_, ?_, ?_⟩
  · intro obj s flag ir args e h
    simp only [callEncode, h]
  · intro obj err args
    simp only [callEncode]
  · intro obj s flag ir args ts h
    simp only [callEncode, h]

/-- Witness for C3: a malformed signature string aborts the call, and a
resolved signature of arity 2 with zero supplied arguments still lets the
call proceed (the arity mismatch is non-fatal). -/
theorem claim3_signature_resolution_witness :
    callEncode "/object" (some "*") true (.ok []) [] =
      .error ⟨"unexpected char " ++ charDebug '*' ++ " in D-Bus type representation",
        ["in signature specified here"]⟩ ∧
    callEncode "/object" (some "ss") true (.ok []) [] = .ok ([], []) := by
  constructor
  · exact claim3_signature_resolution.1 "/object" "*" true (.ok []) []
      ("unexpected char " ++ charDebug '*' ++ " in D-Bus type representation")
      (by rw [show ("*" : String) = String.mk ['*'] from rfl, DbusType.parse_all, parseAllL_cons,
            parseL_other '*' [] (by decide)])
  · rw [claim3_signature_resolution.2.2 "/object" "ss" true (.ok []) [] [.String, .String]
      (by rw [show ("ss" : String) = String.mk ['s', 's'] from rfl, DbusType.parse_all,
            parseAllL_cons, parseL_string]
          dsimp only
          rw [parseAllL_cons, parseL_string]
          dsimp only
          rw [parseAllL_nil])]
    rfl

/-- C4: encoding a List against a Struct expected type with N element types
fails with the arity-mismatch error citing both counts whenever the list
length differs from N; with matching lengths each element is encoded against
the struct element type at the same position (a positional zip, no
reordering). -/
theorem claim4_struct_arity :
    (∀ (vals : List Value) (types : List DbusType), vals.length ≠ types.length →
      to_message_item (.list vals) (some (.Struct types)) =
        .error (structArityError types vals.length)) ∧
    (∀ (vals : List Value) (types : List DbusType), vals.length = types.length →
      to_message_item (.list vals) (some (.Struct types)) =
        match encodeStructElems vals types with
        | .error e => .error e
        | .ok items => .ok (.structItem items)) ∧
    (∀ (vals : List Value) (types : List DbusType),
      encodeStructElems vals types =
        (vals.zip types).mapM (fun p => to_message_item p.1 (some p.2))) := by
  refine ⟨?_, ?_, ?_⟩
  · intro vals types h
    simp only [to_message_item]
    simp [h]
  · intro vals types h
    simp only [to_message_item]
    simp only [h, ne_eq, not_true_eq_false, if_false]
  · intro vals types
    induction vals generalizing types with
    | nil =>
      cases types <;> (simp only [encodeStructElems, List.zip_nil_left, List.mapM_nil]; rfl)
    | cons v vs ih =>
      cases types with
      | nil =>
        simp only [encodeStructElems, List.zip_nil_right, List.mapM_nil]
        rfl
      | cons t ts =>
        rw [encodeStructElems, List.zip_cons_cons, List.mapM_cons, ih ts]
        cases h : to_message_item v (some t) with
        | error e => rfl
        | ok item =>
          cases hm : (vs.zip ts).mapM (fun p => to_message_item p.1 (some p.2)) with
          | error e => rfl
          | ok items => rfl

/-- Witness for C4: a 2-element list against a 3-element struct type fails
citing 3 and 2; against a 2-element struct type each element is encoded
positionally. -/
theorem claim4_struct_arity_witness :
    to_message_item (.list [.int 1, .int 2]) (some (.Struct [.Int64, .Int64, .Int64])) =
      .error (structArityError [.Int64, .Int64, .Int64] 2) ∧
    to_message_item (.list [.int 1, .int 2]) (some (.Struct [.Int64, .Int64])) =
      .ok (.structItem [.int64 1, .int64 2]) := by
  constructor
  · exact claim4_struct_arity.1 [.int 1, .int 2] [.Int64, .Int64, .Int64] (by decide)
  · rw [claim4_struct_arity.2.1 [.int 1, .int 2] [.Int64, .Int64] (by decide)]
    simp [encodeStructElems, to_message_item]

/-- C5: a UInt64 wire argument always decodes to its decimal string, never an
Int; encoding the string "18446744073709551615" against UInt64 succeeds and
decodes back to that exact string; encoding the string "-1" against UInt64
fails with an encode error. -/
theorem claim5_uint64 :
    (∀ n : Nat, from_refarg (.uint64 n) = .ok (.string (toString n))) ∧
    to_message_item (.string "18446744073709551615") (some .UInt64) =
      .ok (.uint64 18446744073709551615) ∧
    from_refarg (.uint64 18446744073709551615) = .ok (.string "18446744073709551615") ∧
    to_message_item (.string "-1") (some .UInt64) =
      .error (convErr .UInt64 "invalid digit found in string") := by
  refine ⟨?_, ?_, ?_, ?_⟩
  · intro n
    rw [from_refarg.eq_def]
  · have h : parseUnsigned 18446744073709551615 "18446744073709551615" =
        .ok 18446744073709551615 := rfl
    simp only [to_message_item, h]
  · rw [from_refarg.eq_def]
    rfl
  · have h : parseUnsigned 18446744073709551615 "-1" =
        .error "invalid digit found in string" := rfl
    simp only [to_message_item, h]

/-- The Variant arm of `to_message_item`: any value expected as `Variant` is
encoded with no expected type and the result wrapped as a variant (shared by
several claims below). -/
theorem tmi_variant (v : Value) :
    to_message_item v (some .Variant) =
      match to_message_item v none with
      | .error e => .error e
      | .ok item => .ok (.variant item) := by
  simp only [to_message_item]

/-- `decodeListItems` keeps, in order, exactly the elements whose decode
succeeds. -/
theorem decodeListItems_filterMap (items : List MessageItem) :
    decodeListItems items = items.filterMap (fun x => (from_refarg x).toOption) := by
  induction items with
  | nil => simp [decodeListItems]
  | cons x rest ih =>
    rw [decodeListItems]
    cases h : from_refarg x with
    | error e => simp [h, List.filterMap_cons, Except.toOption, ih]
    | ok v => simp [h, List.filterMap_cons, Except.toOption, ih]

/-- C6: with no expected type, fixed defaults apply per host value kind:
String→String, Int→Int64, Float→Double, Bool→Boolean, List→Array(Variant)
with each element recursively encoded and boxed as its own variant, and
Record→Array(DictEntry(String, Variant)); any other host value kind is an
encode error. -/
theorem claim6_default_types :
    (∀ s, to_message_item (.string s) none = to_message_item (.string s) (some .String)) ∧
    (∀ v : Int, to_message_item (.int v) none = to_message_item (.int v) (some .Int64)) ∧
    (∀ f, to_message_item (.float f) none = to_message_item (.float f) (some .Double)) ∧
    (∀ b, to_message_item (.bool b) none = to_message_item (.bool b) (some .Boolean)) ∧
    (∀ vals, to_message_item (.list vals) none =
      to_message_item (.list vals) (some (.Array .Variant))) ∧
    (∀ entries, to_message_item (.record entries) none =
      to_message_item (.record entries) (some (.Array (.DictEntry .String .Variant)))) ∧
    (∀ (v : Value) (vs : List Value), encodeArrayElems (v :: vs) .Variant =
      match to_message_item v none with
      | .error e => .error e
      | .ok item =>
        match encodeArrayElems vs .Variant with
        | .error e => .error e
        | .ok items => .ok (.variant item :: items)) ∧
    (∀ bs, to_message_item (.binary bs) none = .error (unsupportedError (.binary bs))) ∧
    to_message_item .nothing none = .error (unsupportedError .nothing) := by
  refine ⟨?_, ?_, ?_, ?_, ?_, ?_, ?_, ?_, ?_⟩
  · intro s; simp only [to_message_item]
  · intro v; simp only [to_message_item]
  · intro f; simp only [to_message_item]
  · intro b; simp only [to_message_item]
  · intro vals; simp only [to_message_item]
  · intro entries; simp only [to_message_item]
  · intro v vs
    rw [encodeArrayElems, tmi_variant v]
    cases h : to_message_item v none with
    | error e => rfl
    | ok item =>
      cases hm : encodeArrayElems vs .Variant with
      | error e => rfl
      | ok items => rfl
  · intro bs; simp only [to_message_item]
  · simp only [to_message_item]

/-- C7: decoder partial-failure tolerance: a non-dictionary, non-byte array
decodes to the List of exactly those elements that decode successfully, in
order (failures silently dropped, no abort); a failing element is dropped
from the element loop; a dictionary pair whose key is not a string is
silently skipped; and a dictionary array decodes through the pair loop whose
failures are only those of value decodes. -/
theorem claim7_decode_tolerance :
    (∀ (items : List MessageItem) (sig : Str),
      startsWithA sig.data ['a', '\x7b'] = false → sig ≠ "ay" →
      from_refarg (.array items sig) =
        .ok (.list (items.filterMap (fun x => (from_refarg x).toOption)))) ∧
    (∀ (x : MessageItem) (rest : List MessageItem) (e : Str), from_refarg x = .error e →
      decodeListItems (x :: rest) = decodeListItems rest) ∧
    (∀ (k v : MessageItem) (rest : List MessageItem), k.asStr = none →
      decodeDictItems (k :: v :: rest) = decodeDictItems rest) ∧
    (∀ (items : List MessageItem) (sig : Str),
      startsWithA sig.data ['a', '\x7b'] = true →
      from_refarg (.array items sig) =
        match decodeDictItems items with
        | .error e => .error e
        | .ok entries => .ok (.record entries)) := by
  refine ⟨?_, ?_, ?_, ?_⟩
  · intro items sig h1 h2
    simp only [from_refarg, h1, h2]
    simp [decodeListItems_filterMap]
  · intro x rest e h
    rw [decodeListItems, h]
  · intro k v rest h
    rw [decodeDictItems, h]
  · intro items sig h1
    simp only [from_refarg, h1]
    simp

/-- Witness for C7: an array of signature `as` containing a corrupt element
decodes to the list of the two good elements, and a dictionary pair with an
Int32 key is skipped. -/
theorem claim7_decode_tolerance_witness :
    from_refarg (.array [.str "a", .invalid, .str "b"] "as") =
      .ok (.list [.string "a", .string "b"]) ∧
    decodeDictItems [.int32 5, .str "v"] = decodeDictItems [] := by
  constructor
  · rw [claim7_decode_tolerance.1 [.str "a", .invalid, .str "b"] "as" (by decide) (by decide)]
    simp [List.filterMap_cons, from_refarg, Except.toOption]
  · exact claim7_decode_tolerance.2.2.1 (.int32 5) (.str "v") [] rfl

/-- C8: array-of-bytes special case: a wire array of signature `ay` decodes
to a Binary host value holding exactly its bytes (never a List of integers),
and a Binary host value encoded against Array(Byte) produces a wire byte
array with exactly the original bytes in order. -/
theorem claim8_byte_array :
    (∀ bs : List Nat, from_refarg (.array (bs.map MessageItem.byte) "ay") = .ok (.binary bs)) ∧
    (∀ bs : List Nat, to_message_item (.binary bs) (some (.Array .Byte)) =
      .ok (.array (bs.map MessageItem.byte) (DbusType.stringify (.Array .Byte)))) := by
  constructor
  · intro bs
    have h1 : startsWithA ("ay" : String).data ['a', '\x7b'] = false := by decide
    simp only [from_refarg, h1]
    simp only [Bool.false_eq_true, if_false, if_pos rfl]
    rw [List.map_map]
    have : (getByte ∘ MessageItem.byte) = id := by
      funext b; rfl
    rw [this, List.map_id]
    simp
  · intro bs
    simp only [to_message_item]

/-- C9: variant flattening and boxing: decoding a Variant unwraps and decodes
its single contained argument with no residual marker (a Variant wrapping the
string "x" decodes to exactly the host string "x"); encoding any host value
against an expected Variant type encodes it with no expected type and wraps
the result as a variant. -/
theorem claim9_variant :
    (∀ inner, from_refarg (.variant inner) = from_refarg inner) ∧
    from_refarg (.variant (.str "x")) = .ok (.string "x") ∧
    (∀ v : Value, to_message_item v (some .Variant) =
      match to_message_item v none with
      | .error e => .error e
      | .ok item => .ok (.variant item)) := by
  refine ⟨?_, ?_, ?_⟩
  · intro inner
    simp only [from_refarg]
  · simp only [from_refarg]
  · exact tmi_variant

/-- C10: asymmetry in dictionary decoding: a pair whose key is not a string
is skipped, but a pair whose key is a string and whose value fails to decode
aborts the whole decode with that error — unlike ordinary array elements,
whose individual failures are dropped; and a dict-array decode surfaces
exactly the pair-loop error. -/
theorem claim10_dict_value_error_aborts :
    (∀ (k v : MessageItem) (rest : List MessageItem), k.asStr = none →
      decodeDictItems (k :: v :: rest) = decodeDictItems rest) ∧
    (∀ (k v : MessageItem) (rest : List MessageItem) (ks e : Str),
      k.asStr = some ks → from_refarg v = .error e →
      decodeDictItems (k :: v :: rest) = .error e) ∧
    (∀ (x : MessageItem) (rest : List MessageItem) (e : Str), from_refarg x = .error e →
      decodeListItems (x :: rest) = decodeListItems rest) ∧
    (∀ (items : List MessageItem) (sig : Str) (e : Str),
      startsWithA sig.data ['a', '\x7b'] = true → decodeDictItems items = .error e →
      from_refarg (.array items sig) = .error e) := by
  refine ⟨?_, ?_, ?_, ?_⟩
  · intro k v rest h
    rw [decodeDictItems, h]
  · intro k v rest ks e h1 h2
    rw [decodeDictItems, h1, h2]
  · intro x rest e h
    rw [decodeListItems, h]
  · intro items sig e h1 h2
    simp only [from_refarg, h1, h2]
    simp

/-- Witness for C10: in the dictionary `a{sv}` view, the non-string-keyed
pair (Int32 5, "v") is skipped, while the string-keyed pair ("k", invalid)
aborts the whole decode with the value's decode error; the same corrupt
element inside an ordinary array is simply dropped. -/
theorem claim10_dict_value_error_aborts_witness :
    decodeDictItems [.int32 5, .str "v", .str "k", .invalid] =
      .error "Encountered invalid D-Bus value" ∧
    from_refarg (.array [.str "k", .invalid] "a\x7bsv\x7d") =
      .error "Encountered invalid D-Bus value" ∧
    decodeListItems [.invalid] = [] := by
  refine ⟨?_, ?_, ?_⟩
  · rw [claim10_dict_value_error_aborts.1 (.int32 5) (.str "v") [.str "k", .invalid] rfl]
    exact claim10_dict_value_error_aborts.2.1 (.str "k") .invalid [] "k"
      "Encountered invalid D-Bus value" rfl (by simp only [from_refarg])
  · refine claim10_dict_value_error_aborts.2.2.2 [.str "k", .invalid] "a\x7bsv\x7d"
      "Encountered invalid D-Bus value" (by decide) ?_
    exact claim10_dict_value_error_aborts.2.1 (.str "k") .invalid [] "k"
      "Encountered invalid D-Bus value" rfl (by simp only [from_refarg])
  · rw [claim10_dict_value_error_aborts.2.2.1 .invalid [] "Encountered invalid D-Bus value"
      (by simp only [from_refarg])]
    simp only [decodeListItems]

end NuDbus
